import Mathlib

/-!
Verification of the coverage-diff reporting layer of pycobertura.

The definitions below shallowly embed `pycobertura/reporters.py`.  Python
integers become `Int`/`Nat`, Python floats (only the coverage `line_rate`
values, which are exact small fractions in our properties) become `Rat`,
Python namedtuples become structures/inductives, and the `for` loops of the
reporters become `List.foldl` with explicit accumulators.

Components the repository uses but whose code is not in `src/`
(`CoberturaDiff`, `rangify`, the ANSI color helpers) are modelled from the
specification and are marked as such in their doc comments.
-/

namespace Pycobertura

/-! ## Decimal rendering helpers

Python renders numbers with `'%+d'`, `'%.2f%%'` and `'%+.2f%%'` format
strings.  We model decimal rendering with a fuel-based digit extractor so
that everything reduces in the kernel. -/

/-- Little-endian decimal digits of `n`, with fuel (`n` itself is always
enough fuel since a number has at most `n` digits). -/
def digitsAux : Nat → Nat → List Nat
  | 0, _ => []
  | fuel + 1, n => if n = 0 then [] else n % 10 :: digitsAux fuel (n / 10)

/-- Decimal rendering of a natural number, as produced by Python `'%d'`. -/
def renderNat (n : Nat) : String :=
  if n = 0 then "0" else String.mk ((digitsAux n n).reverse.map Nat.digitChar)

/-- Rendering of an integer by Python `'%+d'`: an explicit sign followed by
the decimal digits. -/
def formatPlusInt (i : Int) : String :=
  if i < 0 then "-" ++ renderNat i.natAbs else "+" ++ renderNat i.toNat

/-- Two-digit zero-padded rendering of `n < 100`, for the decimals of
`'%.2f'`. -/
def pad2 (n : Nat) : String :=
  if n < 10 then "0" ++ renderNat n else renderNat n

/-- Rendering of a nonnegative rational by Python `'%.2f'` (rounded to two
decimal places). -/
def formatFixed2Abs (x : Rat) : String :=
  let c : Nat := (round (x * 100)).toNat
  renderNat (c / 100) ++ "." ++ pad2 (c % 100)

/-- Rendering of a rational by Python `'%.2f'`, with sign. -/
def formatFixed2 (x : Rat) : String :=
  if x < 0 then "-" ++ formatFixed2Abs (-x) else formatFixed2Abs x

/-- Python `'%.2f%%' % (line_rate * 100)` from `TextReporter.format_row`. -/
def formatPercent (r : Rat) : String :=
  formatFixed2 (r * 100) ++ "%"

/-- Python `'%+.2f%%' % (line_rate * 100)` from the delta reporters: an explicit
sign, two decimals, and a percent sign. -/
def formatPlusPercent (r : Rat) : String :=
  (if r * 100 < 0 then "-" ++ formatFixed2Abs (-(r * 100))
   else "+" ++ formatFixed2Abs (r * 100)) ++ "%"

/-- Python `'%+d' % v if v else '-'`: the scalar-delta formatting shared by
`TextReporterDelta.format_row` and `HtmlReporterDelta.format_row`
(Python truthiness: `0` is falsy). -/
def formatDeltaInt (i : Int) : String :=
  if i ≠ 0 then formatPlusInt i else "-"

/-- Python `'%+.2f%%' % (line_rate * 100) if line_rate else '-'` (Python
truthiness: `0.0` is falsy). -/
def formatDeltaRate (q : Rat) : String :=
  if q ≠ 0 then formatPlusPercent q else "-"

/-- Modelled from the spec: ANSI coloring (`pycobertura/utils.py`, not under
`src/`) is an out-of-scope rendering concern (§1 non-goals); `green` wraps a
string in an ANSI escape sequence.  The exact escape codes are immaterial to
every claim. -/
def green (s : String) : String := "\x1b[32m" ++ s ++ "\x1b[0m"

/-- Modelled from the spec: ANSI red, see `green`. -/
def red (s : String) : String := "\x1b[31m" ++ s ++ "\x1b[0m"

/-! ## LineRangeCompressor (`rangify`) -/

/-- Modelled from the spec: `rangify` lives in `pycobertura/utils.py`, which
is not under `src/`.  Per §4.1 it groups a sorted, duplicate-free sequence
of line numbers into minimal contiguous `(start, stop)` ranges in a single
linear pass, merging consecutive integers (difference 1) into one pair.
This is the pass's inner state: `start` and `stop` delimit the range being
accumulated. -/
def rangifyGo : List Nat → Nat → Nat → List (Nat × Nat)
  | [], start, stop => [(start, stop)]
  | n :: ns, start, stop =>
    if n = stop + 1 then rangifyGo ns start n
    else (start, stop) :: rangifyGo ns n n

/-- Modelled from the spec: see `rangifyGo`.  Empty input yields an empty
sequence. -/
def rangify : List Nat → List (Nat × Nat)
  | [] => []
  | n :: ns => rangifyGo ns n n

/-! ## Row shapes (`class_row` / `class_row_missed`) -/

/-- The two namedtuple shapes of `reporters.py` for delta rows: `ClassRow`
(4 fields) and `ClassRowMissed` (5 fields, the extra one being the
`(line_number, is_new)` missed-line detail produced by the diff engine). -/
inductive DeltaRow where
  | plain (class_filename : String) (total_statements : Int)
      (total_misses : Int) (line_rate : Rat)
  | missed (class_filename : String) (total_statements : Int)
      (total_misses : Int) (line_rate : Rat)
      (missed_lines : List (Nat × Bool))
deriving DecidableEq, Repr

namespace DeltaRow

def class_filename : DeltaRow → String
  | .plain n _ _ _ => n
  | .missed n _ _ _ _ => n

def total_statements : DeltaRow → Int
  | .plain _ ts _ _ => ts
  | .missed _ ts _ _ _ => ts

def total_misses : DeltaRow → Int
  | .plain _ _ tm _ => tm
  | .missed _ _ tm _ _ => tm

def line_rate : DeltaRow → Rat
  | .plain _ _ _ lr => lr
  | .missed _ _ _ lr _ => lr

/-- The missed-line detail, when the row carries it. -/
def missed_lines? : DeltaRow → Option (List (Nat × Bool))
  | .plain _ _ _ _ => none
  | .missed _ _ _ _ ml => some ml

/-- Whether the row is the 5-field `class_row_missed` shape. -/
def isMissedShape : DeltaRow → Bool
  | .plain _ _ _ _ => false
  | .missed _ _ _ _ _ => true

/-- Python `any(class_row[1:])` from `DeltaReporter.get_report_lines`: the
truthiness disjunction over every field after the filename.  For the
5-field shape this includes the `missed_lines` list (a nonempty list is
truthy). -/
def anyTail : DeltaRow → Bool
  | .plain _ ts tm lr =>
      decide (ts ≠ 0) || decide (tm ≠ 0) || decide (lr ≠ 0)
  | .missed _ ts tm lr ml =>
      decide (ts ≠ 0) || decide (tm ≠ 0) || decide (lr ≠ 0) || !ml.isEmpty

end DeltaRow

/-! ## The diff-engine interface consumed by the reporters

`reporters.py` treats `CoberturaDiff` as an external collaborator (spec §6).
Its Python methods take an optional identifier; we split each such method
into a per-file field (`..._of`) and a whole-snapshot aggregate field. -/

/-- Per-line change status of a source hunk line (spec §3). -/
inductive LineStatus where
  | unchanged
  | newMiss
  | fixedMiss
  | context
deriving DecidableEq, Repr

/-- A contiguous block of tagged source lines (spec §3). -/
structure Hunk where
  lines : List (Nat × String × LineStatus)
deriving DecidableEq, Repr

/-- Interface of `CoberturaDiff` as used by the reporters. -/
structure CoberturaDiffI where
  class_files : List String
  diff_total_statements_of : String → Int
  diff_total_misses_of : String → Int
  diff_line_rate_of : String → Rat
  diff_missed_lines : String → List (Nat × Bool)
  diff_total_statements : Int
  diff_total_misses : Int
  diff_line_rate : Rat
  class_source_hunks : String → List Hunk

/-! ## DeltaReporter -/

structure DeltaReporter where
  differ : CoberturaDiffI
  show_source : Bool := true

namespace DeltaReporter

/-- Embeds `DeltaReporter.get_class_row`: a 5-field row (with the diff engine's
missed-line detail) when `show_source`, else a 4-field row. -/
def get_class_row (r : DeltaReporter) (class_name : String) : DeltaRow :=
  if r.show_source then
    DeltaRow.missed class_name
      (r.differ.diff_total_statements_of class_name)
      (r.differ.diff_total_misses_of class_name)
      (r.differ.diff_line_rate_of class_name)
      (r.differ.diff_missed_lines class_name)
  else
    DeltaRow.plain class_name
      (r.differ.diff_total_statements_of class_name)
      (r.differ.diff_total_misses_of class_name)
      (r.differ.diff_line_rate_of class_name)

/-- Embeds `DeltaReporter.get_footer_row`: the `'TOTAL'` row built from the
whole-snapshot aggregate deltas, with dummy (empty) missed lines when
`show_source`. -/
def get_footer_row (r : DeltaReporter) : DeltaRow :=
  if r.show_source then
    DeltaRow.missed "TOTAL" r.differ.diff_total_statements
      r.differ.diff_total_misses r.differ.diff_line_rate []
  else
    DeltaRow.plain "TOTAL" r.differ.diff_total_statements
      r.differ.diff_total_misses r.differ.diff_line_rate

/-- Embeds `DeltaReporter.get_report_lines`: per-file rows in `class_files()`
order, kept only when `any(class_row[1:])` (the "don't report unchanged
class files" filter), with the footer appended last. -/
def get_report_lines (r : DeltaReporter) : List DeltaRow :=
  (r.differ.class_files.foldl
    (fun lines class_name =>
      if (r.get_class_row class_name).anyTail then
        lines ++ [r.get_class_row class_name]
      else lines)
    [])
  ++ [r.get_footer_row]

end DeltaReporter

/-! ## TextReporter (`format_row` only; table layout is out of scope) -/

/-- The 5-field `class_row_missed` shape as the plain (non-delta)
`Reporter` fills it: the missed-line detail is a bare list of line
numbers. -/
structure ClassRowMissed where
  class_filename : String
  total_statements : Nat
  total_misses : Nat
  line_rate : Rat
  missed_lines : List Nat
deriving DecidableEq, Repr

/-- The row shape `TextReporter.format_row` produces: the line rate and the
missed lines are rendered to strings, the counts are passed through. -/
structure FormattedTextRow where
  class_filename : String
  total_statements : Nat
  total_misses : Nat
  line_rate : String
  missed_lines : String
deriving DecidableEq, Repr

/-- Embeds `TextReporter.format_row`: renders the line rate as a percentage and the
missed lines as comma-separated ranges (`rangify` output; a singleton range
prints as the bare line number, a longer one as `start-stop`). -/
def TextReporter.format_row (row : ClassRowMissed) : FormattedTextRow where
  class_filename := row.class_filename
  total_statements := row.total_statements
  total_misses := row.total_misses
  line_rate := formatPercent row.line_rate
  missed_lines :=
    String.intercalate ", "
      ((rangify row.missed_lines).map fun p =>
        if p.1 = p.2 then renderNat p.1
        else renderNat p.1 ++ "-" ++ renderNat p.2)

/-! ## TextReporterDelta -/

structure TextReporterDelta where
  differ : CoberturaDiffI
  show_source : Bool := true
  color : Bool := false

/-- Embeds `TextReporterDelta.format_row`: the three scalar deltas rendered with
explicit signs (or `'-'` when falsy), optional ANSI coloring of the misses
and of each missed-line token, and (when `show_source`) the
`['-', '+'][is_new]`-marked missed-line tokens joined with `', '`.  The
result is a Python list of strings.  (Accessing `row.missed_lines` on a
4-field row is a caller error in the source; the reporters only ever pass
rows of the matching shape, so the `getD []` default is unreachable.) -/
def TextReporterDelta.format_row (r : TextReporterDelta) (row : DeltaRow) :
    List String :=
  let total_statements := formatDeltaInt row.total_statements
  let line_rate := formatDeltaRate row.line_rate
  let total_misses0 := formatDeltaInt row.total_misses
  let total_misses :=
    if r.color && decide (total_misses0 ≠ "-") then
      (if total_misses0.data.head? = some '+' then red else green)
        total_misses0
    else total_misses0
  let base := [row.class_filename, total_statements, total_misses, line_rate]
  if r.show_source then
    let missed_lines :=
      (row.missed_lines?.getD []).map fun t =>
        (if t.2 then "+" else "-") ++ renderNat t.1
    let missed_lines_colored :=
      if r.color then
        missed_lines.map fun line =>
          (if line.data.head? = some '+' then red else green) line
      else missed_lines
    base ++ [String.intercalate ", " missed_lines_colored]
  else base

/-! ## HtmlReporterDelta -/

structure HtmlReporterDelta where
  differ : CoberturaDiffI
  show_source : Bool := true
  color : Bool := false

/-- The namedtuple-of-strings row `HtmlReporterDelta.format_row` produces:
`class_row` (4 fields) or `class_row_missed` (5 fields, with the
missed-line tokens kept as a list rather than joined). -/
inductive FormattedDeltaRow where
  | plain (class_filename total_statements total_misses line_rate : String)
  | missed (class_filename total_statements total_misses line_rate : String)
      (missed_lines : List String)
deriving DecidableEq, Repr

/-- The missed-line tokens of a formatted HTML delta row (empty for the
4-field shape). -/
def FormattedDeltaRow.missed_tokens : FormattedDeltaRow → List String
  | .plain _ _ _ _ => []
  | .missed _ _ _ _ ml => ml

/-- The rendered statements-delta field of a formatted HTML delta row. -/
def FormattedDeltaRow.total_statements : FormattedDeltaRow → String
  | .plain _ ts _ _ => ts
  | .missed _ ts _ _ _ => ts

/-- The rendered misses-delta field of a formatted HTML delta row. -/
def FormattedDeltaRow.total_misses : FormattedDeltaRow → String
  | .plain _ _ tm _ => tm
  | .missed _ _ tm _ _ => tm

/-- The rendered line-rate-delta field of a formatted HTML delta row. -/
def FormattedDeltaRow.line_rate : FormattedDeltaRow → String
  | .plain _ _ _ lr => lr
  | .missed _ _ _ lr _ => lr

/-- Embeds `HtmlReporterDelta.format_row`: same scalar-delta rendering as the text
reporter (no coloring), with the `['-', '+'][is_new]`-marked missed-line
tokens kept as a list when `show_source`. -/
def HtmlReporterDelta.format_row (r : HtmlReporterDelta) (row : DeltaRow) :
    FormattedDeltaRow :=
  let total_statements := formatDeltaInt row.total_statements
  let total_misses := formatDeltaInt row.total_misses
  let line_rate := formatDeltaRate row.line_rate
  if r.show_source then
    FormattedDeltaRow.missed row.class_filename total_statements total_misses
      line_rate
      ((row.missed_lines?.getD []).map fun t =>
        (if t.2 then "+" else "-") ++ renderNat t.1)
  else
    FormattedDeltaRow.plain row.class_filename total_statements total_misses
      line_rate

/-- The sources accumulation inside `HtmlReporterDelta.generate` (lines
290-296): for each file in `class_files()` enumeration order, look up its
source hunks via `get_source_hunks` and skip the file (`continue`) when the
hunk list is empty. -/
def HtmlReporterDelta.sources (r : HtmlReporterDelta) :
    List (String × List Hunk) :=
  r.differ.class_files.foldl
    (fun sources class_filename =>
      if (r.differ.class_source_hunks class_filename).isEmpty then sources
      else sources ++ [(class_filename, r.differ.class_source_hunks class_filename)])
    []

/-! ## The diff engine, modelled from the spec

`CoberturaDiff` lives in `pycobertura/cobertura.py`, which is not under
`src/`; everything in this section is modelled from the spec (§3, §4.2,
§7). -/

/-- Modelled from the spec: a `CoverageSource` snapshot (§3, §6) — per-file
statement/miss counts, missed line numbers (ascending, unique), and
optional source text.  `class_files` lists the identifiers present. -/
structure Cobertura where
  class_files : List String
  total_statements : String → Nat
  total_misses : String → Nat
  missed_lines : String → List Nat
  source_lines : String → Option (List (Nat × String))

namespace Cobertura

/-- Modelled from the spec (§4.2, §9): the explicit absence-as-zero policy
— a file absent from a snapshot contributes 0 statements to it. -/
def statementsOrZero (c : Cobertura) (f : String) : Nat :=
  if c.class_files.contains f then c.total_statements f else 0

/-- Modelled from the spec: absence-as-zero for miss counts. -/
def missesOrZero (c : Cobertura) (f : String) : Nat :=
  if c.class_files.contains f then c.total_misses f else 0

/-- Modelled from the spec: absence gives an empty missed-line list. -/
def missedOrEmpty (c : Cobertura) (f : String) : List Nat :=
  if c.class_files.contains f then c.missed_lines f else []

/-- Modelled from the spec (§3, §7): per-file
`line_rate = covered / total`, defined as `0` when `total_statements = 0`
(and under the absent-as-zero-rate policy of §4.2). -/
def rateOrZero (c : Cobertura) (f : String) : Rat :=
  let ts := c.statementsOrZero f
  if ts = 0 then 0
  else ((ts : Rat) - (c.missesOrZero f : Rat)) / (ts : Rat)

/-- Modelled from the spec: whole-snapshot aggregate statement count. -/
def aggregate_statements (c : Cobertura) : Nat :=
  (c.class_files.map c.total_statements).sum

/-- Modelled from the spec: whole-snapshot aggregate miss count. -/
def aggregate_misses (c : Cobertura) : Nat :=
  (c.class_files.map c.total_misses).sum

/-- Modelled from the spec: whole-snapshot aggregate line rate, with the
same division-by-zero policy as per-file rates. -/
def aggregate_rate (c : Cobertura) : Rat :=
  if c.aggregate_statements = 0 then 0
  else ((c.aggregate_statements : Rat) - (c.aggregate_misses : Rat))
        / (c.aggregate_statements : Rat)

end Cobertura

/-- Insertion of a tagged missed line into a list sorted by line number. -/
def insertByLine (t : Nat × Bool) : List (Nat × Bool) → List (Nat × Bool)
  | [] => [t]
  | u :: us => if t.1 ≤ u.1 then t :: u :: us else u :: insertByLine t us

/-- Sort a tagged missed-line list by line number ascending (§4.2: the
symmetric difference "must be sorted by line number ascending, not grouped
by new/fixed"). -/
def sortByLine (l : List (Nat × Bool)) : List (Nat × Bool) :=
  l.foldr insertByLine []

/-- Insertion of a tagged source line into a list sorted by line number. -/
def insertSrcByLine (t : Nat × String × LineStatus) :
    List (Nat × String × LineStatus) → List (Nat × String × LineStatus)
  | [] => [t]
  | u :: us => if t.1 ≤ u.1 then t :: u :: us else u :: insertSrcByLine t us

/-- Sort tagged source lines by line number ascending. -/
def sortSrcByLine (l : List (Nat × String × LineStatus)) :
    List (Nat × String × LineStatus) :=
  l.foldr insertSrcByLine []

/-- Modelled from the spec (§4.2): the context window around a change shown
in a hunk — "a small constant, e.g. 3 lines of context", left open in §9. -/
def hunkContext : Nat := 3

/-- Modelled from the spec (§4.2): classification of a source line by the
same rule as `diff_missed_lines` — missed only in the new snapshot is a new
miss, only in the old a fixed miss, otherwise unchanged. -/
def tagLine (newOnly oldOnly : List Nat) (n : Nat) : LineStatus :=
  if newOnly.contains n then LineStatus.newMiss
  else if oldOnly.contains n then LineStatus.fixedMiss
  else LineStatus.unchanged

/-- Modelled from the spec (§4.2): group tagged lines into hunks, starting a
new hunk whenever the line numbering is not contiguous. -/
def groupHunksGo : List (Nat × String × LineStatus) → Nat →
    List (Nat × String × LineStatus) → List Hunk
  | [], _, cur => [⟨cur.reverse⟩]
  | l :: ls, prev, cur =>
    if l.1 = prev + 1 then groupHunksGo ls l.1 (l :: cur)
    else ⟨cur.reverse⟩ :: groupHunksGo ls l.1 [l]

/-- Modelled from the spec (§4.2): split a kept-line list into contiguous
hunks. -/
def groupHunks : List (Nat × String × LineStatus) → List Hunk
  | [] => []
  | l :: ls => groupHunksGo ls l.1 [l]

/-- Modelled from the spec (§4.2): build the hunks for one file — walk the
union of the two snapshots' source lines (preferring new-side text), tag
each line, keep only lines within the context window of a change, and group
the survivors into contiguous hunks. -/
def sourceHunks (oldSrc newSrc : List (Nat × String)) (newOnly oldOnly : List Nat) :
    List Hunk :=
  let union := newSrc ++ oldSrc.filter fun p => !(newSrc.map Prod.fst).contains p.1
  let tagged := sortSrcByLine (union.map fun p => (p.1, p.2, tagLine newOnly oldOnly p.1))
  let changed := (tagged.filter fun l => l.2.2 ≠ LineStatus.unchanged).map fun l => l.1
  let kept := tagged.filter fun l =>
    changed.any fun c => l.1 ≤ c + hunkContext && c ≤ l.1 + hunkContext
  let kept := kept.map fun l =>
    if l.2.2 = LineStatus.unchanged then (l.1, l.2.1, LineStatus.context) else l
  groupHunks kept

/-- Modelled from the spec (§4.2): the `CoberturaDiff` engine over an "old"
(`cobertura1`) and a "new" (`cobertura2`) snapshot.  `class_files` is the
union of identifiers; every scalar delta is new-minus-old under the
absence-as-zero policy; `diff_missed_lines` is the symmetric difference of
the missed-line sets, tagged `is_new` for lines missed only in the new
snapshot, sorted by line number; `class_source_hunks` degrades to `[]` when
either side lacks source text. -/
def CoberturaDiff.make (c1 c2 : Cobertura) : CoberturaDiffI where
  class_files :=
    c1.class_files ++ c2.class_files.filter fun f => !c1.class_files.contains f
  diff_total_statements_of f :=
    (c2.statementsOrZero f : Int) - (c1.statementsOrZero f : Int)
  diff_total_misses_of f :=
    (c2.missesOrZero f : Int) - (c1.missesOrZero f : Int)
  diff_line_rate_of f := c2.rateOrZero f - c1.rateOrZero f
  diff_missed_lines f :=
    sortByLine
      (((c2.missedOrEmpty f).filter fun n => !(c1.missedOrEmpty f).contains n).map
          (fun n => (n, true))
        ++ ((c1.missedOrEmpty f).filter fun n => !(c2.missedOrEmpty f).contains n).map
          (fun n => (n, false)))
  diff_total_statements :=
    (c2.aggregate_statements : Int) - (c1.aggregate_statements : Int)
  diff_total_misses :=
    (c2.aggregate_misses : Int) - (c1.aggregate_misses : Int)
  diff_line_rate := c2.aggregate_rate - c1.aggregate_rate
  class_source_hunks f :=
    match c1.source_lines f, c2.source_lines f with
    | some oldSrc, some newSrc =>
        sourceHunks oldSrc newSrc
          ((c2.missedOrEmpty f).filter fun n => !(c1.missedOrEmpty f).contains n)
          ((c1.missedOrEmpty f).filter fun n => !(c2.missedOrEmpty f).contains n)
    | _, _ => []

/-! ## Concrete fixtures used by witnesses and counterexamples -/

/-- A small concrete diff-engine result used to instantiate the theorems
with hypotheses. -/
def exampleDiffer : CoberturaDiffI where
  class_files := ["a.py"]
  diff_total_statements_of := fun _ => 2
  diff_total_misses_of := fun _ => 1
  diff_line_rate_of := fun _ => 0
  diff_missed_lines := fun _ => [(4, true)]
  diff_total_statements := 2
  diff_total_misses := 1
  diff_line_rate := 0
  class_source_hunks := fun _ => []

/-- The C1 counterexample engine: one file whose three scalar deltas are
all zero while its missed-line churn is nonempty (a net-neutral
substitution, e.g. line 3 fixed and line 5 newly missed). -/
def c1Differ : CoberturaDiffI where
  class_files := ["a.py"]
  diff_total_statements_of := fun _ => 0
  diff_total_misses_of := fun _ => 0
  diff_line_rate_of := fun _ => 0
  diff_missed_lines := fun _ => [(3, false), (5, true)]
  diff_total_statements := 0
  diff_total_misses := 0
  diff_line_rate := 0
  class_source_hunks := fun _ => []

/-- A diff-engine result where one file has source hunks and another does
not (its source is unavailable), for the C8 witness. -/
def c8Differ : CoberturaDiffI where
  class_files := ["a.py", "b.py"]
  diff_total_statements_of := fun _ => 1
  diff_total_misses_of := fun _ => 0
  diff_line_rate_of := fun _ => 0
  diff_missed_lines := fun _ => []
  diff_total_statements := 2
  diff_total_misses := 0
  diff_line_rate := 0
  class_source_hunks := fun f =>
    if f = "b.py" then [⟨[(1, "pass", LineStatus.newMiss)]⟩] else []

/-- The C6 "old" snapshot: no files at all. -/
def c6Old : Cobertura where
  class_files := []
  total_statements := fun _ => 0
  total_misses := fun _ => 0
  missed_lines := fun _ => []
  source_lines := fun _ => none

/-- The C6 "new" snapshot: one added file `b.py` with 5 statements and 2
misses (missed lines 1 and 2). -/
def c6New : Cobertura where
  class_files := ["b.py"]
  total_statements := fun _ => 5
  total_misses := fun _ => 2
  missed_lines := fun _ => [1, 2]
  source_lines := fun _ => none

/-! ## Helper lemmas -/

/-- A conditional-append `foldl` (the reporters' accumulation loops) is a
`filter` followed by a `map`. -/
theorem foldl_guard_append {α β : Type} (q : α → Bool) (g : α → β) :
    ∀ (l : List α) (init : List β),
      l.foldl (fun acc c => if q c then acc ++ [g c] else acc) init
        = init ++ (l.filter q).map g := by
  intro l
  induction l with
  | nil => intro init; simp
  | cons x xs ih =>
    intro init
    rw [List.foldl_cons, List.filter_cons]
    cases hq : q x with
    | false => simp only [hq, if_neg, Bool.false_eq_true, not_false_eq_true, ih]
    | true => simp [hq, ih, List.append_assoc]

/-- Variant of `foldl_guard_append` where the guard skips instead of
keeping (the `continue` in `HtmlReporterDelta.generate`). -/
theorem foldl_skip_append {α β : Type} (q : α → Bool) (g : α → β) :
    ∀ (l : List α) (init : List β),
      l.foldl (fun acc c => if q c then acc else acc ++ [g c]) init
        = init ++ (l.filter fun c => !q c).map g := by
  intro l
  induction l with
  | nil => intro init; simp
  | cons x xs ih =>
    intro init
    rw [List.foldl_cons, List.filter_cons]
    cases hq : q x with
    | false => simp [hq, ih, List.append_assoc]
    | true => simp [hq, ih]

/-- The digit extractor is a right inverse of radix-10 evaluation. -/
theorem digitsAux_ofDigits :
    ∀ (fuel n : Nat), n ≤ fuel → Nat.ofDigits 10 (digitsAux fuel n) = n := by
  intro fuel
  induction fuel with
  | zero =>
    intro n hn
    interval_cases n
    simp [digitsAux, Nat.ofDigits]
  | succ fuel ih =>
    intro n hn
    by_cases h0 : n = 0
    · simp [digitsAux, h0, Nat.ofDigits]
    · have hdiv : n / 10 ≤ fuel := by
        have : n / 10 < n := Nat.div_lt_self (Nat.pos_of_ne_zero h0) (by norm_num)
        omega
      simp only [digitsAux, h0, if_neg, if_false]
      rw [Nat.ofDigits_cons, ih _ hdiv]
      omega

/-- Every extracted digit is a decimal digit. -/
theorem digitsAux_lt (fuel : Nat) :
    ∀ n d, d ∈ digitsAux fuel n → d < 10 := by
  induction fuel with
  | zero => intro n d hd; simp [digitsAux] at hd
  | succ fuel ih =>
    intro n d hd
    by_cases h0 : n = 0
    · simp [digitsAux, h0] at hd
    · simp only [digitsAux, h0, if_false] at hd
      rcases List.mem_cons.mp hd with h | h
      · subst h; exact Nat.mod_lt _ (by norm_num)
      · exact ih _ _ h

/-- The digit list of a nonzero number is nonempty. -/
theorem digitsAux_ne_nil (n : Nat) (hn : n ≠ 0) : digitsAux n n ≠ [] := by
  cases n with
  | zero => exact absurd rfl hn
  | succ m => simp [digitsAux]

/-- Decimal rendering never produces the empty string. -/
theorem renderNat_data_ne_nil (n : Nat) : (renderNat n).data ≠ [] := by
  by_cases h0 : n = 0
  · subst h0; simp [renderNat]
  · simp only [renderNat, h0, if_false]
    intro h
    have hne := digitsAux_ne_nil n h0
    have h' : (digitsAux n n).reverse.map Nat.digitChar = [] := h
    exact hne (List.reverse_eq_nil_iff.mp (List.map_eq_nil_iff.mp h'))

/-- Decimal rendering yields `"0"` only for zero. -/
theorem renderNat_eq_zero_iff (n : Nat) : renderNat n = "0" ↔ n = 0 := by
  constructor
  · intro h
    by_contra h0
    simp only [renderNat, h0, if_false] at h
    have hzero : ("0" : String) = String.mk ['0'] := rfl
    rw [hzero] at h
    injection h with h
    have hlen : (digitsAux n n).length = 1 := by
      have := congrArg List.length h
      simpa using this
    rcases List.length_eq_one.mp hlen with ⟨d, hd⟩
    rw [hd] at h
    simp only [List.reverse_cons, List.reverse_nil, List.nil_append,
      List.map_cons, List.map_nil] at h
    have hchar : Nat.digitChar d = '0' := by
      injection h
    have hd10 : d < 10 := digitsAux_lt n n d (by rw [hd]; exact List.mem_singleton.mpr rfl)
    have hd0 : d = 0 := by
      interval_cases d <;> first | rfl | exact absurd hchar (by decide)
    have hval := digitsAux_ofDigits n n le_rfl
    rw [hd, hd0] at hval
    simp [Nat.ofDigits] at hval
    exact h0 hval.symm
  · intro h; subst h; rfl

/-- Python `'%+d'` always renders at least a sign and one digit. -/
theorem formatPlusInt_data (i : Int) :
    ∃ s : String, (formatPlusInt i).data = (if 0 ≤ i then '+' else '-') :: s.data
      ∧ s.data ≠ [] := by
  by_cases h : i < 0
  · refine ⟨renderNat i.natAbs, ?_, renderNat_data_ne_nil _⟩
    have : ¬ 0 ≤ i := by omega
    simp [formatPlusInt, h, this, String.data_append]
  · refine ⟨renderNat i.toNat, ?_, renderNat_data_ne_nil _⟩
    have : 0 ≤ i := by omega
    simp [formatPlusInt, h, this, String.data_append]

/-- The scalar-delta integer field is the dash exactly for a zero delta. -/
theorem formatDeltaInt_eq_dash (i : Int) : formatDeltaInt i = "-" ↔ i = 0 := by
  constructor
  · intro h
    by_contra h0
    rw [formatDeltaInt, if_pos h0] at h
    rcases formatPlusInt_data i with ⟨s, hs, hne⟩
    have := congrArg String.data h
    rw [hs] at this
    have hlen := congrArg List.length this
    simp at hlen
    exact hne (List.length_eq_zero.mp hlen)
  · intro h; subst h; rfl

/-- The first character of the scalar-delta integer field is `'+'` exactly
for a positive delta (zero renders as the dash, which starts with `'-'`). -/
theorem formatDeltaInt_head (i : Int) :
    (formatDeltaInt i).data.head? = some (if 0 < i then '+' else '-') := by
  by_cases h0 : i = 0
  · subst h0; rfl
  · rw [formatDeltaInt, if_pos h0]
    rcases formatPlusInt_data i with ⟨s, hs, _⟩
    rw [hs, List.head?_cons]
    by_cases hle : 0 ≤ i
    · have hlt : 0 < i := by omega
      rw [if_pos hle, if_pos hlt]
    · have hlt : ¬ 0 < i := by omega
      rw [if_neg hle, if_neg hlt]

/-- The scalar-delta integer field is never the string `"+0"`. -/
theorem formatDeltaInt_ne_pluszero (i : Int) : formatDeltaInt i ≠ "+0" := by
  by_cases h0 : i = 0
  · subst h0; decide
  · rw [formatDeltaInt, if_pos h0]
    intro h
    rcases formatPlusInt_data i with ⟨s, hs, hne⟩
    have hd := congrArg String.data h
    rw [hs] at hd
    have hplus : ("+0" : String).data = ['+', '0'] := rfl
    rw [hplus] at hd
    by_cases hsign : 0 ≤ i
    · rw [if_pos hsign] at hd
      have hs0 : s.data = ['0'] := by
        injection hd with _ h2
      have : s = "0" := String.ext hs0
      by_cases hpos : i < 0
      · omega
      · have hren : s = renderNat i.toNat := by
          have hnot : ¬ i < 0 := hpos
          simp only [formatPlusInt, hnot, if_false] at hs
          have : (("+" : String) ++ renderNat i.toNat).data
              = '+' :: (renderNat i.toNat).data := by
            simp [String.data_append]
          rw [this] at hs
          rw [if_pos hsign] at hs
          injection hs with _ htail
          exact String.ext htail.symm
        rw [hren] at this
        have := (renderNat_eq_zero_iff i.toNat).mp this
        omega
    · rw [if_neg hsign] at hd
      injection hd with h1 _
      exact absurd h1 (by decide)

/-- Python `'%+.2f%%'` renders a sign, then digits and a dot, then the percent
sign. -/
theorem formatPlusPercent_data (q : Rat) :
    ∃ l : List Char,
      (formatPlusPercent q).data = ((if 0 ≤ q then '+' else '-') :: l) ++ ['%'] := by
  unfold formatPlusPercent
  by_cases h : q * 100 < 0
  · have hq : ¬ 0 ≤ q := by
      intro hq
      have : 0 ≤ q * 100 := by positivity
      exact absurd this (not_le.mpr h)
    refine ⟨(formatFixed2Abs (-(q * 100))).data, ?_⟩
    rw [if_pos h, if_neg hq]
    simp [String.data_append]
  · have hq : 0 ≤ q := by
      by_contra hq
      have h100 : q * 100 < 0 := by
        have : q < 0 := lt_of_not_ge hq
        nlinarith
      exact h h100
    refine ⟨(formatFixed2Abs (q * 100)).data, ?_⟩
    rw [if_neg h, if_pos hq]
    simp [String.data_append]

/-- The rate field is the dash exactly for a zero delta. -/
theorem formatDeltaRate_eq_dash (q : Rat) : formatDeltaRate q = "-" ↔ q = 0 := by
  constructor
  · intro h
    by_contra h0
    rw [formatDeltaRate, if_pos h0] at h
    rcases formatPlusPercent_data q with ⟨l, hl⟩
    have hd := congrArg String.data h
    rw [hl] at hd
    have := congrArg List.length hd
    simp at this
  · intro h; subst h; rfl

/-- The first character of the rate field is `'+'` exactly for a positive
delta. -/
theorem formatDeltaRate_head (q : Rat) :
    (formatDeltaRate q).data.head? = some (if 0 < q then '+' else '-') := by
  by_cases h0 : q = 0
  · subst h0; rfl
  · rw [formatDeltaRate, if_pos h0]
    rcases formatPlusPercent_data q with ⟨l, hl⟩
    rw [hl, List.cons_append, List.head?_cons]
    by_cases hle : 0 ≤ q
    · have hlt : 0 < q := lt_of_le_of_ne hle (Ne.symm h0)
      rw [if_pos hle, if_pos hlt]
    · have hlt : ¬ 0 < q := fun hlt => hle hlt.le
      rw [if_neg hle, if_neg hlt]

/-- The rate field is never the string `"+0"` (it always ends in `'%'`). -/
theorem formatDeltaRate_ne_pluszero (q : Rat) : formatDeltaRate q ≠ "+0" := by
  by_cases h0 : q = 0
  · subst h0; decide
  · rw [formatDeltaRate, if_pos h0]
    intro h
    rcases formatPlusPercent_data q with ⟨l, hl⟩
    have hd := congrArg String.data h
    rw [hl] at hd
    have hlast := congrArg List.getLast? hd
    rw [List.getLast?_concat] at hlast
    have : ((("+0" : String).data).getLast?) = some '0' := by decide
    rw [this] at hlast
    injection hlast with hlast
    exact absurd hlast (by decide)

/-- Invariants of the `rangify` pass: the emitted ranges are separated by
gaps of at least two (so merging was maximal), are well-formed
(`start ≤ stop`), and never start before the accumulating range. -/
theorem rangifyGo_props :
    ∀ (xs : List Nat) (start stop : Nat), start ≤ stop →
      List.Chain' (· < ·) (stop :: xs) →
      List.Pairwise (fun p q : Nat × Nat => p.2 + 1 < q.1) (rangifyGo xs start stop)
      ∧ ∀ p ∈ rangifyGo xs start stop, start ≤ p.1 ∧ p.1 ≤ p.2 := by
  intro xs
  induction xs with
  | nil =>
    intro start stop hss _
    refine ⟨by simp [rangifyGo], ?_⟩
    intro p hp
    simp only [rangifyGo, List.mem_singleton] at hp
    subst hp
    exact ⟨le_refl _, hss⟩
  | cons y ys ih =>
    intro start stop hss hch
    have hstopy : stop < y := (List.chain'_cons.mp hch).1
    have hch' : List.Chain' (· < ·) (y :: ys) := (List.chain'_cons.mp hch).2
    simp only [rangifyGo]
    by_cases hy : y = stop + 1
    · rw [if_pos hy]
      exact ih start y (by omega) hch'
    · rw [if_neg hy]
      have hy1 : stop + 1 < y := by omega
      obtain ⟨pw, hmem⟩ := ih y y le_rfl hch'
      refine ⟨List.pairwise_cons.mpr ⟨?_, pw⟩, ?_⟩
      · intro q hq
        have hq1 := (hmem q hq).1
        show stop + 1 < q.1
        omega
      · intro p hp
        rcases List.mem_cons.mp hp with h | h
        · subst h; exact ⟨le_refl start, hss⟩
        · obtain ⟨h1, h2⟩ := hmem p h
          exact ⟨by omega, h2⟩

/-- Coverage of the `rangify` pass: an integer is inside one of the emitted
ranges exactly when it is in the accumulating range or in the remaining
input. -/
theorem rangifyGo_cover :
    ∀ (xs : List Nat) (start stop : Nat), start ≤ stop →
      List.Chain' (· < ·) (stop :: xs) →
      ∀ n, (∃ p ∈ rangifyGo xs start stop, p.1 ≤ n ∧ n ≤ p.2)
        ↔ (start ≤ n ∧ n ≤ stop ∨ n ∈ xs) := by
  intro xs
  induction xs with
  | nil =>
    intro start stop _ _ n
    simp [rangifyGo]
  | cons y ys ih =>
    intro start stop hss hch n
    have hstopy : stop < y := (List.chain'_cons.mp hch).1
    have hch' : List.Chain' (· < ·) (y :: ys) := (List.chain'_cons.mp hch).2
    simp only [rangifyGo]
    by_cases hy : y = stop + 1
    · rw [if_pos hy]
      rw [ih start y (by omega) hch' n]
      constructor
      · rintro (⟨h1, h2⟩ | h)
        · by_cases hn : n ≤ stop
          · exact Or.inl ⟨h1, hn⟩
          · exact Or.inr (List.mem_cons.mpr (Or.inl (by omega)))
        · exact Or.inr (List.mem_cons.mpr (Or.inr h))
      · rintro (⟨h1, h2⟩ | h)
        · exact Or.inl ⟨h1, by omega⟩
        · rcases List.mem_cons.mp h with h | h
          · subst h; exact Or.inl ⟨by omega, by omega⟩
          · exact Or.inr h
    · rw [if_neg hy]
      have hy1 : stop + 1 < y := by omega
      have hcov := ih y y le_rfl hch' n
      simp only [List.mem_cons, exists_eq_or_imp] at hcov ⊢
      constructor
      · rintro (⟨h1, h2⟩ | h)
        · exact Or.inl ⟨h1, h2⟩
        · rcases hcov.mp h with ⟨h1, h2⟩ | h
          · exact Or.inr (Or.inl (by omega))
          · exact Or.inr (Or.inr h)
      · rintro (⟨h1, h2⟩ | h | h)
        · exact Or.inl ⟨h1, h2⟩
        · subst h
          exact Or.inr (hcov.mpr (Or.inl ⟨le_refl _, le_refl _⟩))
        · exact Or.inr (hcov.mpr (Or.inr h))

/-- In a list of ranges separated by gaps, an integer lies in at most one
range. -/
theorem pairwise_contain_unique :
    ∀ (l : List (Nat × Nat)),
      List.Pairwise (fun p q : Nat × Nat => p.2 + 1 < q.1) l →
      ∀ (n : Nat), ∀ p ∈ l, ∀ q ∈ l,
        p.1 ≤ n → n ≤ p.2 → q.1 ≤ n → n ≤ q.2 → p = q := by
  intro l
  induction l with
  | nil => intro _ n p hp; exact absurd hp (List.not_mem_nil p)
  | cons x xs ih =>
    intro hpw n p hp q hq hp1 hp2 hq1 hq2
    have hhead := (List.pairwise_cons.mp hpw).1
    have htail := (List.pairwise_cons.mp hpw).2
    rcases List.mem_cons.mp hp with hpx | hpxs <;>
      rcases List.mem_cons.mp hq with hqx | hqxs
    · rw [hpx, hqx]
    · subst hpx
      have := hhead q hqxs
      omega
    · subst hqx
      have := hhead p hpxs
      omega
    · exact ih htail n p hpxs q hqxs hp1 hp2 hq1 hq2

/-- Normal form of `DeltaReporter.get_report_lines`: the class rows that
survive the `any(class_row[1:])` filter, in enumeration order, then the
footer. -/
theorem get_report_lines_eq (r : DeltaReporter) :
    r.get_report_lines
      = ((r.differ.class_files.filter fun c => (r.get_class_row c).anyTail).map
          r.get_class_row)
        ++ [r.get_footer_row] := by
  unfold DeltaReporter.get_report_lines
  rw [foldl_guard_append (fun c => (r.get_class_row c).anyTail) r.get_class_row]
  simp

/-- Normal form of the sources accumulation in
`HtmlReporterDelta.generate`: the files whose hunk list is nonempty, in
enumeration order, paired with their hunks. -/
theorem html_sources_eq (r : HtmlReporterDelta) :
    r.sources
      = ((r.differ.class_files.filter fun f =>
            !(r.differ.class_source_hunks f).isEmpty).map
          fun f => (f, r.differ.class_source_hunks f)) := by
  unfold HtmlReporterDelta.sources
  rw [foldl_skip_append (fun f => (r.differ.class_source_hunks f).isEmpty)
    (fun f => (f, r.differ.class_source_hunks f))]
  simp

/-! ## Claims -/

/-- C2: For every pair of snapshots (any diff engine), the row sequence of
`DeltaReporter.get_report_lines` ends with the footer row, which is always
last; its identifier is `'TOTAL'`, its scalar fields are the
whole-snapshot aggregate deltas (`diff_total_statements()`,
`diff_total_misses()`, `diff_line_rate()` with no identifier argument), and
its `missed_lines` field, when present (`show_source`), is the empty
sequence. -/
theorem claim_C2_footer_row (r : DeltaReporter) :
    (∃ body, r.get_report_lines = body ++ [r.get_footer_row])
    ∧ r.get_report_lines.getLast? = some r.get_footer_row
    ∧ (r.get_footer_row).class_filename = "TOTAL"
    ∧ (r.get_footer_row).total_statements = r.differ.diff_total_statements
    ∧ (r.get_footer_row).total_misses = r.differ.diff_total_misses
    ∧ (r.get_footer_row).line_rate = r.differ.diff_line_rate
    ∧ (r.get_footer_row).missed_lines?
        = (if r.show_source then some [] else none) := by
  refine ⟨⟨_, get_report_lines_eq r⟩,
    by rw [get_report_lines_eq r, List.getLast?_concat], ?_, ?_, ?_, ?_, ?_⟩ <;>
    cases hss : r.show_source <;>
      simp [DeltaReporter.get_footer_row, hss, DeltaRow.class_filename,
        DeltaRow.total_statements, DeltaRow.total_misses, DeltaRow.line_rate,
        DeltaRow.missed_lines?]

/-- C3: For every pair of snapshots (any diff engine), the non-footer rows
of `DeltaReporter.get_report_lines` are exactly the class rows that survive
the filter, in the diff engine's `class_files()` enumeration order with no
reordering, and the footer row is the last element. -/
theorem claim_C3_row_order (r : DeltaReporter) :
    r.get_report_lines
      = ((r.differ.class_files.filter fun c => (r.get_class_row c).anyTail).map
          r.get_class_row)
        ++ [r.get_footer_row]
    ∧ r.get_report_lines.dropLast
      = (r.differ.class_files.filter fun c => (r.get_class_row c).anyTail).map
          r.get_class_row
    ∧ r.get_report_lines.getLast? = some r.get_footer_row :=
  ⟨get_report_lines_eq r,
   by rw [get_report_lines_eq r, List.dropLast_concat],
   by rw [get_report_lines_eq r, List.getLast?_concat]⟩

/-- C10: Every row of a single `DeltaReporter.get_report_lines` call,
footer included, has the shape determined solely by the `show_source` flag
fixed at construction: the 5-field `class_row_missed` shape exactly when
`show_source` is true, the 4-field `class_row` shape otherwise. -/
theorem claim_C10_row_shape (r : DeltaReporter) (row : DeltaRow)
    (hrow : row ∈ r.get_report_lines) :
    row.isMissedShape = r.show_source := by
  rw [get_report_lines_eq r] at hrow
  rcases List.mem_append.mp hrow with h | h
  · rcases List.mem_map.mp h with ⟨c, _, hc⟩
    rw [← hc]
    cases hss : r.show_source <;>
      simp [DeltaReporter.get_class_row, hss, DeltaRow.isMissedShape]
  · rw [List.mem_singleton.mp h]
    cases hss : r.show_source <;>
      simp [DeltaReporter.get_footer_row, hss, DeltaRow.isMissedShape]

/-- Witness for C10 at a concrete reporter and row. -/
theorem claim_C10_row_shape_witness :
    (DeltaRow.missed "TOTAL" 2 1 0 []).isMissedShape
      = (⟨exampleDiffer, true⟩ : DeltaReporter).show_source :=
  claim_C10_row_shape ⟨exampleDiffer, true⟩ (DeltaRow.missed "TOTAL" 2 1 0 [])
    (by decide)

/-- C1 counterexample: with `show_source` true, a row whose three scalar
deltas are all zero is NOT dropped when its `missed_lines` is nonempty
(Python `any(class_row[1:])` also sees the truthy list), while the same
engine with `show_source` false drops it — so the filter is not the pure
scalar predicate and is not independent of `missed_lines` or of
`show_source`. -/
theorem claim_C1_counterexample :
    c1Differ.diff_total_statements_of "a.py" = 0
    ∧ c1Differ.diff_total_misses_of "a.py" = 0
    ∧ c1Differ.diff_line_rate_of "a.py" = 0
    ∧ (⟨c1Differ, true⟩ : DeltaReporter).get_report_lines
        = [DeltaRow.missed "a.py" 0 0 0 [(3, false), (5, true)],
           DeltaRow.missed "TOTAL" 0 0 0 []]
    ∧ (⟨c1Differ, false⟩ : DeltaReporter).get_report_lines
        = [DeltaRow.plain "TOTAL" 0 0 0] := by
  decide

/-- C1, amended: a class row is included iff one of its three scalar deltas
is nonzero OR (`show_source` is true AND its `missed_lines` is nonempty);
with `show_source` false the filter is exactly "some scalar delta
nonzero". -/
theorem claim_C1_filter_amended (r : DeltaReporter) :
    r.get_report_lines
      = ((r.differ.class_files.filter fun c =>
            decide (r.differ.diff_total_statements_of c ≠ 0)
            || decide (r.differ.diff_total_misses_of c ≠ 0)
            || decide (r.differ.diff_line_rate_of c ≠ 0)
            || (r.show_source && !(r.differ.diff_missed_lines c).isEmpty)).map
          r.get_class_row)
        ++ [r.get_footer_row] := by
  rw [get_report_lines_eq r]
  congr 2
  apply List.filter_congr
  intro c _
  cases hss : r.show_source <;>
    simp [DeltaReporter.get_class_row, hss, DeltaRow.anyTail, Bool.or_assoc]

/-- C5: For every delta row with `show_source` enabled, both
`TextReporterDelta.format_row` and `HtmlReporterDelta.format_row` render
each `(line_number, is_new)` tuple of `missed_lines` as the `is_new`-chosen
marker (`'+'` for a regression, `'-'` for a fix) directly prefixing the
line number: the HTML tokens are exactly the marker strings in order, the
text reporter joins the same marker strings with `', '`, and each marker
string starts with `'+'` exactly when `is_new` is true. -/
theorem claim_C5_markers (d : CoberturaDiffI) (name : String) (ts tm : Int)
    (lr : Rat) (ml : List (Nat × Bool)) :
    ((HtmlReporterDelta.format_row ⟨d, true, false⟩
        (DeltaRow.missed name ts tm lr ml)).missed_tokens
      = ml.map fun t => (if t.2 then "+" else "-") ++ renderNat t.1)
    ∧ (∀ i : Nat,
        (HtmlReporterDelta.format_row ⟨d, true, false⟩
            (DeltaRow.missed name ts tm lr ml)).missed_tokens.get? i
          = (ml.get? i).map fun t => (if t.2 then "+" else "-") ++ renderNat t.1)
    ∧ ((TextReporterDelta.format_row ⟨d, true, false⟩
          (DeltaRow.missed name ts tm lr ml)).get? 4
        = some (String.intercalate ", "
            (ml.map fun t => (if t.2 then "+" else "-") ++ renderNat t.1)))
    ∧ (∀ t : Nat × Bool,
        (((if t.2 then "+" else "-") ++ renderNat t.1) : String).data.head?
          = some (if t.2 then '+' else '-')) := by
  refine ⟨rfl, ?_, rfl, ?_⟩
  · intro i
    have h1 : (HtmlReporterDelta.format_row ⟨d, true, false⟩
          (DeltaRow.missed name ts tm lr ml)).missed_tokens
        = ml.map fun t => (if t.2 then "+" else "-") ++ renderNat t.1 := rfl
    rw [h1]
    rw [List.get?_eq_getElem?, List.get?_eq_getElem?, List.getElem?_map]
  · rintro ⟨lno, b⟩
    cases b <;> rfl

/-- C8: A file whose `class_source_hunks` is empty (source unavailable on
either side) is omitted from the sources list that
`HtmlReporterDelta.generate` renders, with no failure; files with nonempty
hunks are kept. -/
theorem claim_C8_missing_source_omitted (r : HtmlReporterDelta) (f : String)
    (hf : r.differ.class_source_hunks f = []) :
    (∀ p ∈ r.sources, p.1 ≠ f)
    ∧ (∀ g ∈ r.differ.class_files, r.differ.class_source_hunks g ≠ [] →
        (g, r.differ.class_source_hunks g) ∈ r.sources) := by
  constructor
  · intro p hp
    rw [html_sources_eq r] at hp
    rcases List.mem_map.mp hp with ⟨g, hgf, hgp⟩
    have hmem := List.mem_filter.mp hgf
    intro hpf
    have hg : g = f := by rw [← hgp] at hpf; exact hpf
    rw [hg] at hmem
    rw [hf] at hmem
    simp at hmem
  · intro g hg hne
    rw [html_sources_eq r]
    refine List.mem_map.mpr ⟨g, List.mem_filter.mpr ⟨hg, ?_⟩, rfl⟩
    simp [List.isEmpty_iff, hne]

/-- Witness for C8: with the concrete engine `c8Differ`, whose `a.py` has
no source hunks, `b.py` (which has hunks) is still in the sources list. -/
theorem claim_C8_missing_source_omitted_witness :
    ("b.py", c8Differ.class_source_hunks "b.py")
      ∈ (⟨c8Differ, true, false⟩ : HtmlReporterDelta).sources :=
  (claim_C8_missing_source_omitted ⟨c8Differ, true, false⟩ "a.py" (by rfl)).2
    "b.py" (by decide) (by decide)

/-- C9: In both `TextReporterDelta.format_row` (position 1, 2, 3 of the
row list) and `HtmlReporterDelta.format_row` (the corresponding namedtuple
fields), each scalar delta field is the rendering of
`formatDeltaInt`/`formatDeltaRate`, which produce the literal `'-'` exactly
when the value is zero (including a zero line rate), start with an explicit
`'+'`/`'-'` sign when nonzero, and never produce the string `'+0'`. -/
theorem claim_C9_scalar_fields (d : CoberturaDiffI) (ss : Bool) (row : DeltaRow) :
    ((TextReporterDelta.format_row ⟨d, ss, false⟩ row).get? 1
        = some (formatDeltaInt row.total_statements)
      ∧ (TextReporterDelta.format_row ⟨d, ss, false⟩ row).get? 2
        = some (formatDeltaInt row.total_misses)
      ∧ (TextReporterDelta.format_row ⟨d, ss, false⟩ row).get? 3
        = some (formatDeltaRate row.line_rate))
    ∧ ((HtmlReporterDelta.format_row ⟨d, ss, false⟩ row).total_statements
        = formatDeltaInt row.total_statements
      ∧ (HtmlReporterDelta.format_row ⟨d, ss, false⟩ row).total_misses
        = formatDeltaInt row.total_misses
      ∧ (HtmlReporterDelta.format_row ⟨d, ss, false⟩ row).line_rate
        = formatDeltaRate row.line_rate)
    ∧ (∀ i : Int, (formatDeltaInt i = "-" ↔ i = 0)
        ∧ (formatDeltaInt i).data.head? = some (if 0 < i then '+' else '-')
        ∧ formatDeltaInt i ≠ "+0")
    ∧ (∀ q : Rat, (formatDeltaRate q = "-" ↔ q = 0)
        ∧ (formatDeltaRate q).data.head? = some (if 0 < q then '+' else '-')
        ∧ formatDeltaRate q ≠ "+0") := by
  refine ⟨?_, ?_, ?_, ?_⟩
  · cases ss <;> exact ⟨rfl, rfl, rfl⟩
  · cases ss <;> exact ⟨rfl, rfl, rfl⟩
  · intro i
    exact ⟨formatDeltaInt_eq_dash i, formatDeltaInt_head i,
      formatDeltaInt_ne_pluszero i⟩
  · intro q
    exact ⟨formatDeltaRate_eq_dash q, formatDeltaRate_head q,
      formatDeltaRate_ne_pluszero q⟩

/-- Witness for C9 at concrete deltas: zero renders as the dash and a
positive delta never renders as `"+0"`. -/
theorem claim_C9_scalar_fields_witness :
    formatDeltaInt 0 = "-" ∧ formatDeltaInt 5 ≠ "+0"
      ∧ formatDeltaRate 0 = "-" := by
  have h := claim_C9_scalar_fields exampleDiffer true
    (DeltaRow.missed "a.py" 5 0 0 [])
  exact ⟨(h.2.2.1 0).1.mpr rfl, (h.2.2.1 5).2.2, (h.2.2.2 0).1.mpr rfl⟩

/-- C4: On a finite, ascending, duplicate-free sequence, `rangify` produces
ascending, non-overlapping pairs (separated by gaps, so consecutive
integers are merged maximally), an integer is inside a pair exactly when it
is an input (hence each input lies in exactly one pair), every pair is
well-formed (`start ≤ stop`, singleton runs giving `start = stop`), the
empty input gives the empty output, the spec's concrete examples hold, and
`TextReporter.format_row` renders a singleton range as the bare number and
a longer range as `start-stop`, joined with `', '`. -/
theorem claim_C4_rangify (l : List Nat) (hl : List.Chain' (· < ·) l) :
    rangify [] = []
    ∧ List.Pairwise (fun p q : Nat × Nat => p.2 + 1 < q.1) (rangify l)
    ∧ (∀ n, n ∈ l ↔ ∃ p ∈ rangify l, p.1 ≤ n ∧ n ≤ p.2)
    ∧ (∀ p ∈ rangify l, p.1 ≤ p.2)
    ∧ (∀ n ∈ l, ∃ p ∈ rangify l, (p.1 ≤ n ∧ n ≤ p.2)
        ∧ ∀ q ∈ rangify l, q.1 ≤ n → n ≤ q.2 → q = p)
    ∧ rangify [5] = [(5, 5)]
    ∧ rangify [1, 2, 3, 7, 8, 10] = [(1, 3), (7, 8), (10, 10)]
    ∧ (TextReporter.format_row
        ⟨"a.py", 10, 6, 2 / 5, [1, 2, 3, 7, 8, 10]⟩).missed_lines
      = "1-3, 7-8, 10" := by
  cases l with
  | nil =>
    refine ⟨rfl, by simp [rangify], ?_, by simp [rangify], ?_, rfl, rfl, rfl⟩
    · intro n
      simp [rangify]
    · intro n hn
      exact absurd hn (List.not_mem_nil n)
  | cons x xs =>
    have hpw := (rangifyGo_props xs x x le_rfl hl).1
    have hwf := (rangifyGo_props xs x x le_rfl hl).2
    have hcov := rangifyGo_cover xs x x le_rfl hl
    have hcov' : ∀ n, n ∈ x :: xs ↔ ∃ p ∈ rangify (x :: xs), p.1 ≤ n ∧ n ≤ p.2 := by
      intro n
      rw [show rangify (x :: xs) = rangifyGo xs x x from rfl, hcov n]
      constructor
      · intro h
        rcases List.mem_cons.mp h with h | h
        · exact Or.inl ⟨by omega, by omega⟩
        · exact Or.inr h
      · rintro (⟨h1, h2⟩ | h)
        · exact List.mem_cons.mpr (Or.inl (by omega))
        · exact List.mem_cons.mpr (Or.inr h)
    refine ⟨rfl, hpw, hcov', ?_, ?_, rfl, rfl, rfl⟩
    · intro p hp
      exact (hwf p hp).2
    · intro n hn
      rcases (hcov' n).mp hn with ⟨p, hp, hpc⟩
      refine ⟨p, hp, hpc, ?_⟩
      intro q hq hq1 hq2
      exact pairwise_contain_unique _ hpw n q hq p hp hq1 hq2 hpc.1 hpc.2

/-- Witness for C4 at the spec's concrete example input. -/
theorem claim_C4_rangify_witness :
    List.Chain' (fun a b : Nat => a < b) [1, 2, 3, 7, 8, 10]
    ∧ rangify [1, 2, 3, 7, 8, 10] = [(1, 3), (7, 8), (10, 10)] :=
  ⟨by norm_num [List.chain'_cons],
   (claim_C4_rangify [1, 2, 3, 7, 8, 10]
     (by norm_num [List.chain'_cons])).2.2.2.2.2.2.1⟩

/-- Filtering a list by non-membership in itself gives the empty list. -/
theorem filter_not_contains_self (m : List Nat) :
    (m.filter fun n => !(m.contains n)) = [] := by
  apply List.filter_eq_nil_iff.mpr
  intro a ha
  simp [ha]

/-- C7: Diffing a snapshot against itself yields all-zero scalar deltas and
an empty `missed_lines` for every file, all-zero aggregate deltas, and a
report in which every per-file row is filtered out, leaving only the
all-zero totals row. -/
theorem claim_C7_self_diff (S : Cobertura) (ss : Bool) :
    (∀ f, (CoberturaDiff.make S S).diff_total_statements_of f = 0
      ∧ (CoberturaDiff.make S S).diff_total_misses_of f = 0
      ∧ (CoberturaDiff.make S S).diff_line_rate_of f = 0
      ∧ (CoberturaDiff.make S S).diff_missed_lines f = [])
    ∧ (CoberturaDiff.make S S).diff_total_statements = 0
    ∧ (CoberturaDiff.make S S).diff_total_misses = 0
    ∧ (CoberturaDiff.make S S).diff_line_rate = 0
    ∧ (⟨CoberturaDiff.make S S, ss⟩ : DeltaReporter).get_report_lines
        = [(⟨CoberturaDiff.make S S, ss⟩ : DeltaReporter).get_footer_row]
    ∧ (⟨CoberturaDiff.make S S, ss⟩ : DeltaReporter).get_footer_row
        = (if ss then DeltaRow.missed "TOTAL" 0 0 0 []
           else DeltaRow.plain "TOTAL" 0 0 0) := by
  have hper : ∀ f, (CoberturaDiff.make S S).diff_total_statements_of f = 0
      ∧ (CoberturaDiff.make S S).diff_total_misses_of f = 0
      ∧ (CoberturaDiff.make S S).diff_line_rate_of f = 0
      ∧ (CoberturaDiff.make S S).diff_missed_lines f = [] := by
    intro f
    refine ⟨sub_self _, sub_self _, sub_self _, ?_⟩
    have hf0 := filter_not_contains_self (S.missedOrEmpty f)
    simp only [CoberturaDiff.make]
    rw [hf0]
    simp [sortByLine]
  have hfilter : ((CoberturaDiff.make S S).class_files.filter
      fun c => ((⟨CoberturaDiff.make S S, ss⟩ : DeltaReporter).get_class_row c).anyTail)
      = [] := by
    apply List.filter_eq_nil_iff.mpr
    intro c _
    rcases hper c with ⟨h1, h2, h3, h4⟩
    cases ss <;>
      simp [DeltaReporter.get_class_row, DeltaRow.anyTail, h1, h2, h3, h4]
  refine ⟨hper, sub_self _, sub_self _, sub_self _, ?_, ?_⟩
  · rw [get_report_lines_eq]
    rw [hfilter]
    simp
  · cases ss <;> simp [DeltaReporter.get_footer_row, CoberturaDiff.make, sub_self]

/-- C6: A file present only in the new snapshot with 5 statements and 2
misses has `diff_total_statements = 5` and `diff_total_misses = 2`, and its
row survives the filter of `DeltaReporter.get_report_lines` (the report
contains it ahead of the totals row). -/
theorem claim_C6_added_file :
    (CoberturaDiff.make c6Old c6New).diff_total_statements_of "b.py" = 5
    ∧ (CoberturaDiff.make c6Old c6New).diff_total_misses_of "b.py" = 2
    ∧ (⟨CoberturaDiff.make c6Old c6New, true⟩ : DeltaReporter).get_report_lines
        = [DeltaRow.missed "b.py" 5 2 (3 / 5) [(1, true), (2, true)],
           DeltaRow.missed "TOTAL" 5 2 (3 / 5) []] := by
  have hcf : (CoberturaDiff.make c6Old c6New).class_files = ["b.py"] := by
    simp [CoberturaDiff.make, c6Old, c6New]
  have hstm : (CoberturaDiff.make c6Old c6New).diff_total_statements_of "b.py" = 5 := by
    simp [CoberturaDiff.make, Cobertura.statementsOrZero, c6Old, c6New]
  have hmis : (CoberturaDiff.make c6Old c6New).diff_total_misses_of "b.py" = 2 := by
    simp [CoberturaDiff.make, Cobertura.missesOrZero, c6Old, c6New]
  have hrate : (CoberturaDiff.make c6Old c6New).diff_line_rate_of "b.py" = 3 / 5 := by
    simp [CoberturaDiff.make, Cobertura.rateOrZero, Cobertura.statementsOrZero,
      Cobertura.missesOrZero, c6Old, c6New]
    norm_num
  have hml : (CoberturaDiff.make c6Old c6New).diff_missed_lines "b.py"
      = [(1, true), (2, true)] := by
    simp [CoberturaDiff.make, Cobertura.missedOrEmpty, c6Old, c6New,
      sortByLine, insertByLine]
  have hastm : (CoberturaDiff.make c6Old c6New).diff_total_statements = 5 := by
    simp [CoberturaDiff.make, Cobertura.aggregate_statements, c6Old, c6New]
  have hamis : (CoberturaDiff.make c6Old c6New).diff_total_misses = 2 := by
    simp [CoberturaDiff.make, Cobertura.aggregate_misses, c6Old, c6New]
  have harate : (CoberturaDiff.make c6Old c6New).diff_line_rate = 3 / 5 := by
    simp [CoberturaDiff.make, Cobertura.aggregate_rate, Cobertura.aggregate_statements,
      Cobertura.aggregate_misses, c6Old, c6New]
    norm_num
  refine ⟨hstm, hmis, ?_⟩
  rw [get_report_lines_eq, hcf]
  have hrow : (⟨CoberturaDiff.make c6Old c6New, true⟩ : DeltaReporter).get_class_row "b.py"
      = DeltaRow.missed "b.py" 5 2 (3 / 5) [(1, true), (2, true)] := by
    simp [DeltaReporter.get_class_row, hstm, hmis, hrate, hml]
  have hfoot : (⟨CoberturaDiff.make c6Old c6New, true⟩ : DeltaReporter).get_footer_row
      = DeltaRow.missed "TOTAL" 5 2 (3 / 5) [] := by
    simp [DeltaReporter.get_footer_row, hastm, hamis, harate]
  have hany : (DeltaRow.missed "b.py" 5 2 (3 / 5) [(1, true), (2, true)]).anyTail = true := by
    simp [DeltaRow.anyTail]
  simp [List.filter_cons, hrow, hany, hfoot]

end Pycobertura
